import Mathlib

/-!
Verification development for the ConvBot live conversational audio session
orchestrator (`src/services/geminiService.ts` and `src/types.ts`).

The TypeScript class `GeminiService` is shallowly embedded as a pure state
machine: its private mutable fields become a Lean structure, and each handler
(`handleSessionMessage`, `playStreamedAudio`, `stopSession`,
`handleSessionOpen`, `handleSessionError`, plus the `onaudioprocess` capture
closure) becomes a function from state to state paired with the ordered list
of observable effects (callback invocations, audio-node operations, resource
releases) the handler performs, in the order the code performs them.
Times and durations of the audio clock are modelled as rationals.
-/

namespace ConvBot

/-- `'user' | 'bot'` author tag of a transcript turn (src/types.ts). -/
inductive Author where
  | user
  | bot
deriving DecidableEq, Repr

/-- `AppStatus` enum from src/types.ts. -/
inductive AppStatus where
  | IDLE
  | GREETING
  | LISTENING
  | PROCESSING
  | SPEAKING
  | ERROR
deriving DecidableEq, Repr

/-- `GroundingSource` record from src/types.ts: `{title, uri}`. -/
structure GroundingSource where
  title : String
  uri : String
deriving DecidableEq, Repr

/-- `TranscriptTurn` record from src/types.ts; `grounding` is the optional
`grounding?: GroundingSource[]` field. -/
structure TranscriptTurn where
  author : Author
  text : String
  isFinal : Bool
  grounding : Option (List GroundingSource)
deriving DecidableEq, Repr

/-- The three audio cues the service plays (src/utils/audioCues). -/
inductive Cue where
  | startCue
  | stopCue
  | errorCue
deriving DecidableEq, Repr

/-- One observable effect of a `GeminiService` handler, in the order the code
performs it: callback invocations (`onStatusUpdate`, `onTranscriptUpdate`),
audio-node operations, resource releases, cue playback, device acquisition,
and outbound frame sends.  Scheduled/stopped playback outputs are identified
by the numeric ids the embedding assigns to `AudioBufferSourceNode`s. -/
inductive Effect where
  | statusUpdate (st : AppStatus) (msg : Option String)
  | transcriptUpdate (t : TranscriptTurn)
  | stopSource (id : Nat)
  | scheduleSource (id : Nat) (startTime : ℚ)
  | closeSession
  | stopTrack (id : Nat)
  | disconnectSource
  | disconnectProcessor
  | closeInputCtx
  | closeOutputCtx
  | playCue (c : Cue)
  | acquireMic (ok : Bool)
  | connectNodes
  | sendFrame (id : Nat)
deriving DecidableEq, Repr

/-- Whether a character list starts with the given pattern. -/
def listStartsWith : List Char → List Char → Bool
  | [], _ => true
  | _ :: _, [] => false
  | p :: ps, c :: cs => p == c && listStartsWith ps cs

/-- Whether a character list contains the pattern as a contiguous run. -/
def listHasSub (pat : List Char) : List Char → Bool
  | [] => listStartsWith pat []
  | c :: cs => listStartsWith pat (c :: cs) || listHasSub pat cs

/-- JavaScript `String.prototype.includes`: substring containment. -/
def strIncludes (s pat : String) : Bool :=
  listHasSub pat.data s.data

/-- JavaScript `String.prototype.toLowerCase` on the ASCII range,
character by character. -/
def strLower (s : String) : String :=
  ⟨s.data.map Char.toLower⟩

/-- Fallback user-facing message in `handleSessionError`. -/
def genericErrorMsg : String :=
  "An unexpected error occurred with the AI service."

/-- User-facing message for an invalid API key. -/
def invalidKeyMsg : String :=
  "The API key is invalid. Please check your configuration."

/-- User-facing message for a network failure. -/
def networkErrorMsg : String :=
  "A network error occurred. Please check your internet connection."

/-- User-facing message for a permission problem. -/
def permissionErrorMsg : String :=
  "Could not connect to the AI service due to a permission issue."

/-- User-facing message for an exceeded quota. -/
def quotaErrorMsg : String :=
  "You have exceeded your API quota. Please check your account."

/-- User-facing message for a denied microphone (handleSessionOpen catch). -/
def micDeniedMsg : String :=
  "Microphone access denied. Please enable it in your browser settings."

/-- The error-classification logic of `handleSessionError`
(src/services/geminiService.ts lines 277-295): the raw message, when
truthy (non-empty), is lowercased and matched against fixed substrings in
order; otherwise the generic message stands. -/
def classify (raw : String) : String :=
  if raw = "" then genericErrorMsg
  else
    let m := strLower raw
    if strIncludes m "api key not valid" then invalidKeyMsg
    else if strIncludes m "network" || strIncludes m "failed to fetch" then networkErrorMsg
    else if strIncludes m "permission denied" then permissionErrorMsg
    else if strIncludes m "quota" then quotaErrorMsg
    else genericErrorMsg

/-- The mutable private fields of `GeminiService`
(src/services/geminiService.ts lines 19-33) that the handlers touch.
`mediaStream` carries the ids of its tracks when non-null;
`inputCtxClosed`/`outputCtxClosed` are `none` when the context is null and
`some closed?` otherwise; `sessionPromise` is `none` when null and
`some resolved?` otherwise; `nextSourceId` is the embedding's counter for
fresh `AudioBufferSourceNode` ids. -/
structure GeminiState where
  session : Bool
  sessionPromise : Option Bool
  mediaStream : Option (List Nat)
  source : Bool
  scriptProcessor : Bool
  inputCtxClosed : Option Bool
  outputCtxClosed : Option Bool
  outputSources : List Nat
  nextStartTime : ℚ
  nextSourceId : Nat
  currentInputTranscription : String
  currentOutputTranscription : String
  currentGrounding : List GroundingSource
deriving DecidableEq, Repr

/-- One side (`web` or `maps`) of a grounding chunk, with its optional
`title` and `uri` fields. -/
structure ChunkSide where
  title : Option String
  uri : Option String
deriving DecidableEq, Repr

/-- One entry of `groundingMetadata.groundingChunks`. -/
structure GroundingChunk where
  web : Option ChunkSide
  maps : Option ChunkSide
deriving DecidableEq, Repr

/-- JavaScript `a || b` on an optional string: the right operand stands in
when the left is undefined or empty (falsy). -/
def jsOrStr (a : Option String) (b : String) : String :=
  match a with
  | some v => if v = "" then b else v
  | none => b

/-- `chunk.web?.title || chunk.maps?.title || 'Source'` and
`chunk.web?.uri || chunk.maps?.uri || '#'`
(src/services/geminiService.ts lines 231-234). -/
def mkGroundingSource (chunk : GroundingChunk) : GroundingSource :=
  { title := jsOrStr (chunk.web.bind ChunkSide.title)
      (jsOrStr (chunk.maps.bind ChunkSide.title) "Source"),
    uri := jsOrStr (chunk.web.bind ChunkSide.uri)
      (jsOrStr (chunk.maps.bind ChunkSide.uri) "#") }

/-- A grounding source whose uri resolved (is not the `'#'` marker). -/
def srcOk (src : GroundingSource) : Bool :=
  src.uri != "#"

/-- The `serverContent` of one inbound `LiveServerMessage`, with each field
optional as in the protocol.  `audio` models
`modelTurn.parts[0]?.inlineData.data`: since the embedding is pure, the pair
bundles the ambient audio-clock reading at processing time with the decoded
buffer's duration. -/
structure ServerMessage where
  interrupted : Bool
  inputTranscription : Option String
  outputTranscription : Option String
  groundingChunks : Option (List GroundingChunk)
  audio : Option (ℚ × ℚ)
  turnComplete : Bool
deriving DecidableEq, Repr

/-- The `message.serverContent?.interrupted` block of `handleSessionMessage`
(lines 203-215): stop every live output, clear the live set, zero the
watermark, and flush a non-empty bot accumulator as a final turn with its
grounding. -/
def interruptStep (m : ServerMessage) (s : GeminiState) :
    GeminiState × List Effect :=
  if m.interrupted then
    let s1 := { s with outputSources := [], nextStartTime := 0 }
    if s.currentOutputTranscription = "" then
      (s1, s.outputSources.map Effect.stopSource)
    else
      ({ s1 with currentOutputTranscription := "", currentGrounding := [] },
       s.outputSources.map Effect.stopSource ++
         [Effect.transcriptUpdate
           ⟨Author.bot, s.currentOutputTranscription, true, some s.currentGrounding⟩])
  else (s, [])

/-- The `inputTranscription` block (lines 217-222): report `PROCESSING`,
replace the user accumulator with the new partial, and re-emit it as a
non-final user turn (with no grounding field). -/
def inputStep (m : ServerMessage) (s : GeminiState) :
    GeminiState × List Effect :=
  match m.inputTranscription with
  | none => (s, [])
  | some text =>
    ({ s with currentInputTranscription := text },
     [Effect.statusUpdate AppStatus.PROCESSING none,
      Effect.transcriptUpdate ⟨Author.user, text, false, none⟩])

/-- The `outputTranscription` block (lines 224-238): report `SPEAKING`,
append the delta to the bot accumulator, replace the grounding buffer from
`groundingMetadata.groundingChunks` when present (dropping unresolved `'#'`
uris), and re-emit the accumulator as a non-final bot turn carrying the
grounding buffer. -/
def outputStep (m : ServerMessage) (s : GeminiState) :
    GeminiState × List Effect :=
  match m.outputTranscription with
  | none => (s, [])
  | some text =>
    let newOut := s.currentOutputTranscription ++ text
    let newGr :=
      match m.groundingChunks with
      | some chunks => (chunks.map mkGroundingSource).filter srcOk
      | none => s.currentGrounding
    ({ s with currentOutputTranscription := newOut, currentGrounding := newGr },
     [Effect.statusUpdate AppStatus.SPEAKING none,
      Effect.transcriptUpdate ⟨Author.bot, newOut, false, some newGr⟩])

/-- `playStreamedAudio` (lines 259-275): clamp the watermark to at least the
audio clock's current time `ct`, schedule a fresh source holding the decoded
buffer (duration `dur`) at the clamped watermark, advance the watermark by
the duration, and register the source in the live set. -/
def playStreamedAudio (ct dur : ℚ) (s : GeminiState) :
    GeminiState × List Effect :=
  let t := max s.nextStartTime ct
  ({ s with nextStartTime := t + dur,
            outputSources := s.outputSources ++ [s.nextSourceId],
            nextSourceId := s.nextSourceId + 1 },
   [Effect.scheduleSource s.nextSourceId t])

/-- The audio block of `handleSessionMessage` (lines 240-243) together with
the null-context guard at the top of `playStreamedAudio` (line 260). -/
def audioStep (m : ServerMessage) (s : GeminiState) :
    GeminiState × List Effect :=
  match m.audio with
  | none => (s, [])
  | some (ct, dur) =>
    match s.outputCtxClosed with
    | none => (s, [])
    | some _ => playStreamedAudio ct dur s

/-- The `turnComplete` block (lines 245-256): report `LISTENING`, then flush
each non-empty accumulator as a final turn (the bot turn with its grounding)
and clear it (with the grounding buffer). -/
def turnCompleteStep (m : ServerMessage) (s : GeminiState) :
    GeminiState × List Effect :=
  if m.turnComplete then
    let eU :=
      if s.currentInputTranscription = "" then []
      else [Effect.transcriptUpdate
        ⟨Author.user, s.currentInputTranscription, true, none⟩]
    let eB :=
      if s.currentOutputTranscription = "" then []
      else [Effect.transcriptUpdate
        ⟨Author.bot, s.currentOutputTranscription, true, some s.currentGrounding⟩]
    ({ s with currentInputTranscription := "",
              currentOutputTranscription := "",
              currentGrounding :=
                if s.currentOutputTranscription = "" then s.currentGrounding
                else [] },
     Effect.statusUpdate AppStatus.LISTENING none :: (eU ++ eB))
  else (s, [])

/-- The blocks of `handleSessionMessage` that follow the interruption block,
in source order: input transcription, output transcription, audio playback,
turn completion. -/
def stepsAfterInterrupt (m : ServerMessage) (s : GeminiState) :
    GeminiState × List Effect :=
  let r2 := inputStep m s
  let r3 := outputStep m r2.1
  let r4 := audioStep m r3.1
  let r5 := turnCompleteStep m r4.1
  (r5.1, r2.2 ++ r3.2 ++ r4.2 ++ r5.2)

/-- `handleSessionMessage` (lines 202-257) as a whole: the interruption
block runs first, then the remaining blocks in source order. -/
def handleSessionMessage (m : ServerMessage) (s : GeminiState) :
    GeminiState × List Effect :=
  let r1 := interruptStep m s
  let r2 := stepsAfterInterrupt m r1.1
  (r2.1, r1.2 ++ r2.2)

/-- Process a list of inbound messages in arrival order, concatenating the
effects each `handleSessionMessage` run produces. -/
def processMsgs : List ServerMessage → GeminiState → GeminiState × List Effect
  | [], s => (s, [])
  | m :: ms, s =>
    let r := handleSessionMessage m s
    let rest := processMsgs ms r.1
    (rest.1, r.2 ++ rest.2)

/-- `stopSession` (lines 141-170): play the stop cue, then release each
owned resource behind its own null/closed guard, null the owning field, stop
and clear every live output, and null the session promise.
`AudioContext.close()` is modelled as taking effect immediately. -/
def stopSession (s : GeminiState) : GeminiState × List Effect :=
  let eSession := if s.session then [Effect.closeSession] else []
  let eTracks :=
    match s.mediaStream with
    | some ts => ts.map Effect.stopTrack
    | none => []
  let eSource := if s.source then [Effect.disconnectSource] else []
  let eProc := if s.scriptProcessor then [Effect.disconnectProcessor] else []
  let eIn :=
    match s.inputCtxClosed with
    | some false => [Effect.closeInputCtx]
    | _ => []
  let eOut :=
    match s.outputCtxClosed with
    | some false => [Effect.closeOutputCtx]
    | _ => []
  let eStops := s.outputSources.map Effect.stopSource
  ({ s with session := false, mediaStream := none, source := false,
            scriptProcessor := false,
            inputCtxClosed := s.inputCtxClosed.map (fun _ => true),
            outputCtxClosed := s.outputCtxClosed.map (fun _ => true),
            outputSources := [], sessionPromise := none },
   Effect.playCue Cue.stopCue ::
     (eSession ++ eTracks ++ eSource ++ eProc ++ eIn ++ eOut ++ eStops))

/-- `handleSessionOpen` (lines 172-200): report `LISTENING` and play the
start cue first, then attempt microphone acquisition (`micOk` is the outcome
of `getUserMedia`); on success wire the capture nodes unless the input
context is null; on failure report `ERROR` with the microphone message and
tear down via `stopSession`. -/
def handleSessionOpen (micOk : Bool) (s : GeminiState) :
    GeminiState × List Effect :=
  let pre := [Effect.statusUpdate AppStatus.LISTENING none,
              Effect.playCue Cue.startCue,
              Effect.acquireMic micOk]
  if micOk then
    let s1 := { s with mediaStream := some [0] }
    match s1.inputCtxClosed with
    | none => (s1, pre)
    | some _ =>
      ({ s1 with source := true, scriptProcessor := true },
       pre ++ [Effect.connectNodes])
  else
    let r := stopSession s
    (r.1, pre ++ (Effect.statusUpdate AppStatus.ERROR (some micDeniedMsg) :: r.2))

/-- `handleSessionError` (lines 277-295): play the error cue, classify the
raw message, report `ERROR` with the classified message, then tear down via
`stopSession`. -/
def handleSessionError (raw : String) (s : GeminiState) :
    GeminiState × List Effect :=
  let r := stopSession s
  (r.1,
   Effect.playCue Cue.errorCue ::
     Effect.statusUpdate AppStatus.ERROR (some (classify raw)) :: r.2)

/-- State of an active session right after a successful open, with both
transcript accumulators and the grounding buffer empty. -/
def initState : GeminiState :=
  { session := true, sessionPromise := some true, mediaStream := some [0],
    source := true, scriptProcessor := true,
    inputCtxClosed := some false, outputCtxClosed := some false,
    outputSources := [], nextStartTime := 0, nextSourceId := 0,
    currentInputTranscription := "", currentOutputTranscription := "",
    currentGrounding := [] }

/-- The transcript turns among a list of effects, in emission order. -/
def transcriptEffects (l : List Effect) : List TranscriptTurn :=
  l.filterMap fun e =>
    match e with
    | Effect.transcriptUpdate t => some t
    | _ => none

/-- The status updates among a list of effects, in emission order. -/
def statusEffects (l : List Effect) : List (AppStatus × Option String) :=
  l.filterMap fun e =>
    match e with
    | Effect.statusUpdate st msg => some (st, msg)
    | _ => none

/-- Whether an effect schedules a playback output. -/
def isSchedule : Effect → Bool
  | Effect.scheduleSource _ _ => true
  | _ => false

/-- Whether an effect releases an owned resource (closes the transport
session, stops a media track, disconnects a node, closes an audio context,
or stops a live output). -/
def isRelease : Effect → Bool
  | Effect.closeSession => true
  | Effect.stopTrack _ => true
  | Effect.disconnectSource => true
  | Effect.disconnectProcessor => true
  | Effect.closeInputCtx => true
  | Effect.closeOutputCtx => true
  | Effect.stopSource _ => true
  | _ => false

/-- A pure bot partial-transcription message carrying the delta `d`. -/
def botMsg (d : String) : ServerMessage :=
  ⟨false, none, some d, none, none, false⟩

/-- A pure user partial-transcription message carrying the partial `d`. -/
def userMsg (d : String) : ServerMessage :=
  ⟨false, some d, none, none, none, false⟩

/-- A pure turn-complete message. -/
def tcMsg : ServerMessage :=
  ⟨false, none, none, none, none, true⟩

/-- The running concatenations of a list of deltas on top of `acc`: the
text the bot accumulator holds after each successive delta. -/
def cumConcat (acc : String) : List String → List String
  | [] => []
  | d :: ds => (acc ++ d) :: cumConcat (acc ++ d) ds

/-- State the `onaudioprocess` capture closure
(src/services/geminiService.ts lines 182-190) observes: whether
`this.sessionPromise` is non-null (`hasPromise`), whether that promise has
resolved, and the frames whose `.then` send-callbacks are queued on the
still-pending promise. -/
structure CapState where
  hasPromise : Bool
  promiseResolved : Bool
  pendingSends : List Nat
deriving DecidableEq, Repr

/-- An event the capture closure reacts to: a captured frame arriving, or
the connect promise resolving. -/
inductive CapEvent where
  | frameArrive (id : Nat)
  | promiseResolve
deriving DecidableEq, Repr

/-- One step of the capture closure under JavaScript promise semantics: a
frame is sent immediately when `sessionPromise` is non-null and resolved,
queued on the promise by `.then` when it is non-null but pending, and
dropped when it is null; resolution runs every queued send-callback. -/
def capStep (s : CapState) : CapEvent → CapState × List Nat
  | CapEvent.frameArrive id =>
    if s.hasPromise then
      if s.promiseResolved then (s, [id])
      else ({ s with pendingSends := s.pendingSends ++ [id] }, [])
    else (s, [])
  | CapEvent.promiseResolve =>
    ({ s with promiseResolved := true, pendingSends := [] }, s.pendingSends)

/-- Run the capture closure over a list of events, concatenating the frame
ids handed to `sendRealtimeInput` in order. -/
def capRun (s : CapState) : List CapEvent → CapState × List Nat
  | [] => (s, [])
  | e :: es =>
    let r := capStep s e
    let rest := capRun r.1 es
    (rest.1, r.2 ++ rest.2)

/-- An active-session state whose watermark lags behind the audio clock. -/
def c3State : GeminiState :=
  { initState with nextStartTime := 1 }

/-- An interruption message that also carries an audio chunk. -/
def c2Msg : ServerMessage := ⟨true, none, none, none, some (3, 2), false⟩

/-- A mid-utterance session state: two live outputs, a positive watermark,
a non-empty bot accumulator, one grounding source. -/
def c2State : GeminiState :=
  { initState with
      outputSources := [5, 9]
      nextStartTime := 4
      currentOutputTranscription := "hello"
      currentGrounding := [⟨"T", "u"⟩] }

/-- Capture-closure state while the connect promise exists but has not yet
resolved. -/
def capPending : CapState :=
  ⟨true, false, []⟩

/-- Whether the grounding buffer of a state holds only resolved sources. -/
def grOk (s : GeminiState) : Bool :=
  s.currentGrounding.all srcOk

/-- The grounding discipline of an emitted turn: any grounding sources it
carries have resolved uris, and a bot turn always carries a grounding
list. -/
def turnOk (t : TranscriptTurn) : Bool :=
  (match t.grounding with
   | some g => g.all srcOk
   | none => true)
  && (t.author == Author.user || t.grounding.isSome)

section Theorems

lemma statusEffects_stopSession (s : GeminiState) :
    statusEffects (stopSession s).2 = [] := by
  rcases s with ⟨sess, sp, ms, src, proc, inC, outC, outs, nst, nid, cit, cot, gr⟩
  cases sess <;> cases src <;> cases proc <;> cases ms <;>
    rcases inC with _ | (_ | _) <;> rcases outC with _ | (_ | _) <;>
    simp [stopSession, statusEffects, List.filterMap_append, List.filterMap_map,
      List.filterMap_eq_nil_iff]

/-- C9 (counterexample): the classifier does not match on the substring
`"api key"` (it matches `"api key not valid"`) nor on `"fetch"` alone (it
matches `"failed to fetch"`): `"api key missing"` and `"fetch aborted"`
both classify to the generic message, not to the invalid-credential or
network-failure messages the claim requires. -/
theorem c9_classifier_cex :
    strIncludes (strLower "api key missing") "api key" = true
    ∧ classify "api key missing" = genericErrorMsg
    ∧ genericErrorMsg ≠ invalidKeyMsg
    ∧ strIncludes (strLower "fetch aborted") "fetch" = true
    ∧ classify "fetch aborted" = genericErrorMsg
    ∧ genericErrorMsg ≠ networkErrorMsg := by
  refine ⟨by decide, by decide, by decide, by decide, by decide, by decide⟩

/-- C9 (amended): the error classifier lowercases the raw message and maps
it by case-insensitive substring matching, checked in order: a message
containing `"api key not valid"` yields the invalid-credential message; one
containing `"network"` or `"failed to fetch"` yields the network-failure
message; one containing `"permission denied"` yields the permission
message; one containing `"quota"` yields the quota message; any other
message (including the empty one) yields the generic unknown-error message.
The classified message is delivered via a status update to `ERROR`, the
only status update `handleSessionError` emits. -/
theorem c9_classifier_amended (raw : String) (s : GeminiState) :
    (raw = "" → classify raw = genericErrorMsg)
    ∧ (strIncludes (strLower raw) "api key not valid" = true →
        classify raw = invalidKeyMsg)
    ∧ (strIncludes (strLower raw) "api key not valid" = false →
        (strIncludes (strLower raw) "network"
          || strIncludes (strLower raw) "failed to fetch") = true →
        classify raw = networkErrorMsg)
    ∧ (strIncludes (strLower raw) "api key not valid" = false →
        (strIncludes (strLower raw) "network"
          || strIncludes (strLower raw) "failed to fetch") = false →
        strIncludes (strLower raw) "permission denied" = true →
        classify raw = permissionErrorMsg)
    ∧ (strIncludes (strLower raw) "api key not valid" = false →
        (strIncludes (strLower raw) "network"
          || strIncludes (strLower raw) "failed to fetch") = false →
        strIncludes (strLower raw) "permission denied" = false →
        strIncludes (strLower raw) "quota" = true →
        classify raw = quotaErrorMsg)
    ∧ (strIncludes (strLower raw) "api key not valid" = false →
        (strIncludes (strLower raw) "network"
          || strIncludes (strLower raw) "failed to fetch") = false →
        strIncludes (strLower raw) "permission denied" = false →
        strIncludes (strLower raw) "quota" = false →
        classify raw = genericErrorMsg)
    ∧ statusEffects (handleSessionError raw s).2
        = [(AppStatus.ERROR, some (classify raw))] := by
  have hstop := statusEffects_stopSession s
  rw [statusEffects] at hstop
  by_cases h0 : raw = ""
  · subst h0
    refine ⟨fun _ => rfl, by decide, by decide, by decide, by decide, by decide, ?_⟩
    simp [handleSessionError, statusEffects, hstop]
  · refine ⟨fun h => absurd h h0, ?_, ?_, ?_, ?_, ?_, ?_⟩
    · intro h1
      simp [classify, h0, h1]
    · intro h1 h2
      simp [classify, h0, h1, h2]
    · intro h1 h2 h3
      simp [classify, h0, h1, h2, h3]
    · intro h1 h2 h3 h4
      simp [classify, h0, h1, h2, h3, h4]
    · intro h1 h2 h3 h4
      simp [classify, h0, h1, h2, h3, h4]
    · simp [handleSessionError, statusEffects, hstop]

/-- C9 (witness): a raw message containing the matched substring
`"api key not valid"` classifies to the invalid-credential message. -/
theorem c9_classifier_amended_witness :
    classify "API key not valid" = invalidKeyMsg :=
  (c9_classifier_amended "API key not valid" initState).2.1 (by decide)

/-- C10: `stopSession` itself emits no status update, so the sequence of
statuses reported through `onStatusUpdate` is unchanged by the call; in
particular the `ERROR` status `handleSessionError` reports immediately
before its teardown call is the only (hence last) status update of the
whole error-handling run. -/
theorem c10_stop_no_status (s : GeminiState) :
    statusEffects (stopSession s).2 = []
    ∧ ∀ raw : String,
        statusEffects (handleSessionError raw s).2
          = [(AppStatus.ERROR, some (classify raw))] := by
  refine ⟨statusEffects_stopSession s, fun raw => ?_⟩
  have hstop := statusEffects_stopSession s
  rw [statusEffects] at hstop
  simp [handleSessionError, statusEffects, hstop]

/-- C3 (counterexample): when the audio clock (here at time 5) has passed
the previous watermark (here 1), `playStreamedAudio` clamps before
scheduling, so the new watermark is `max 1 5 + 2 = 7`, not
`previous + duration = 3`. -/
theorem c3_watermark_cex :
    (playStreamedAudio 5 2 c3State).1.nextStartTime = 7
    ∧ c3State.nextStartTime + 2 = 3
    ∧ (7 : ℚ) ≠ 3 := by
  refine ⟨by norm_num [playStreamedAudio, c3State, initState],
          by norm_num [c3State, initState], by norm_num⟩

/-- C3 (amended): after each non-interrupted scheduling step in
`playStreamedAudio` the new watermark equals
`max (previous watermark) (audio-clock current time) + buffer duration`;
hence (for a non-negative duration) the watermark never decreases at a
scheduling step, and it equals `previous watermark + duration` exactly in
the non-stale case, when the clock has not passed the previous watermark.
(It is reset to zero only by interruption or session teardown.) -/
theorem c3_watermark_amended (s : GeminiState) (ct dur : ℚ) (hd : 0 ≤ dur) :
    (playStreamedAudio ct dur s).1.nextStartTime = max s.nextStartTime ct + dur
    ∧ s.nextStartTime ≤ (playStreamedAudio ct dur s).1.nextStartTime
    ∧ (ct ≤ s.nextStartTime →
        (playStreamedAudio ct dur s).1.nextStartTime = s.nextStartTime + dur) := by
  refine ⟨rfl, ?_, fun h => ?_⟩
  · show s.nextStartTime ≤ max s.nextStartTime ct + dur
    exact le_trans (le_max_left _ _) (le_add_of_nonneg_right hd)
  · show max s.nextStartTime ct + dur = s.nextStartTime + dur
    rw [max_eq_left h]

/-- C3 (witness): the amended statement evaluated at a concrete step. -/
theorem c3_watermark_amended_witness :
    (playStreamedAudio 0 2 initState).1.nextStartTime
      = max initState.nextStartTime 0 + 2 :=
  (c3_watermark_amended initState 0 2 (by norm_num)).1

/-- C5 (counterexample): a frame produced while the connect promise is
pending is not handed over at production time, but it is queued on the
promise and handed to the transport when the promise resolves — so a frame
produced before connection resolution IS sent later, contrary to the
claimed drop semantics. -/
theorem c5_frame_gating_cex :
    (capStep capPending (CapEvent.frameArrive 7)).2 = []
    ∧ (capStep capPending (CapEvent.frameArrive 7)).1.pendingSends = [7]
    ∧ (capRun capPending [CapEvent.frameArrive 7, CapEvent.promiseResolve]).2 = [7] := by
  refine ⟨rfl, rfl, rfl⟩

lemma capRun_noPromise (evs : List CapEvent) (s : CapState)
    (h1 : s.hasPromise = false) (h2 : s.pendingSends = []) :
    (capRun s evs).2 = [] := by
  induction evs generalizing s with
  | nil => rfl
  | cons e es ih =>
    cases e with
    | frameArrive id => simp [capRun, capStep, h1, ih _ h1 h2]
    | promiseResolve =>
      have := ih { s with promiseResolved := true, pendingSends := [] } h1 rfl
      simp [capRun, capStep, h2, this]

/-- C5 (amended): the capture closure gates each frame on the mere
existence of `sessionPromise`, not on its resolution: a frame produced with
no connect promise (and nothing queued) is dropped and never sent; a frame
produced while the promise is pending is queued on the promise by
`.then`-chaining and emitted only when the promise resolves; a frame
produced after resolution is handed over immediately. -/
theorem c5_frame_gating_amended (s : CapState) (id : Nat) (evs : List CapEvent) :
    (s.hasPromise = false → s.pendingSends = [] →
        capStep s (CapEvent.frameArrive id) = (s, []) ∧ (capRun s evs).2 = [])
    ∧ (s.hasPromise = true → s.promiseResolved = false →
        capStep s (CapEvent.frameArrive id)
          = ({ s with pendingSends := s.pendingSends ++ [id] }, []))
    ∧ (s.hasPromise = true → s.promiseResolved = true →
        capStep s (CapEvent.frameArrive id) = (s, [id]))
    ∧ capStep s CapEvent.promiseResolve
        = ({ s with promiseResolved := true, pendingSends := [] }, s.pendingSends) := by
  refine ⟨fun h1 h2 => ⟨?_, capRun_noPromise evs s h1 h2⟩,
          fun h1 h2 => ?_, fun h1 h2 => ?_, rfl⟩ <;>
    simp [capStep, h1, h2]

/-- C5 (witness): the amended statement evaluated where no connect promise
exists: the frame is dropped and the run sends nothing. -/
theorem c5_frame_gating_amended_witness :
    (capRun ⟨false, false, []⟩ [CapEvent.frameArrive 2]).2 = [] :=
  ((c5_frame_gating_amended ⟨false, false, []⟩ 2 [CapEvent.frameArrive 2]).1 rfl rfl).2

/-- C6 (counterexample): in the session run where microphone acquisition
fails, `handleSessionOpen` still reports `LISTENING` — as its very first
effect, before the acquisition attempt — even though acquisition never
succeeds, and only afterwards reports `ERROR`. -/
theorem c6_listening_cex :
    (handleSessionOpen false initState).2.head?
        = some (Effect.statusUpdate AppStatus.LISTENING none)
    ∧ Effect.acquireMic true ∉ (handleSessionOpen false initState).2
    ∧ Effect.statusUpdate AppStatus.ERROR (some micDeniedMsg)
        ∈ (handleSessionOpen false initState).2 := by
  refine ⟨rfl, by decide, by decide⟩

/-- C6 (amended): `handleSessionOpen` reports `LISTENING` when the
transport session opens, before device acquisition is attempted: its first
three effects are always the `LISTENING` status update, the start cue, and
the acquisition attempt; when acquisition fails, the status subsequently
transitions to `ERROR` with the microphone-denied message and teardown
runs. -/
theorem c6_listening_amended (micOk : Bool) (s : GeminiState) :
    (handleSessionOpen micOk s).2.take 3
        = [Effect.statusUpdate AppStatus.LISTENING none,
           Effect.playCue Cue.startCue, Effect.acquireMic micOk]
    ∧ (micOk = false →
        Effect.statusUpdate AppStatus.ERROR (some micDeniedMsg)
          ∈ (handleSessionOpen micOk s).2) := by
  cases micOk
  · exact ⟨by simp [handleSessionOpen], fun _ => by simp [handleSessionOpen]⟩
  · refine ⟨?_, fun h => absurd h (by simp)⟩
    rcases hin : s.inputCtxClosed with _ | b <;> simp [handleSessionOpen, hin]

/-- C6 (witness): the amended statement at a failing acquisition. -/
theorem c6_listening_amended_witness :
    Effect.statusUpdate AppStatus.ERROR (some micDeniedMsg)
      ∈ (handleSessionOpen false initState).2 :=
  (c6_listening_amended false initState).2 rfl

lemma stopSession_second (s : GeminiState) :
    (stopSession (stopSession s).1).2 = [Effect.playCue Cue.stopCue] := by
  rcases s with ⟨sess, sp, ms, src, proc, inC, outC, outs, nst, nid, cit, cot, gr⟩
  rcases inC with _ | (_ | _) <;> rcases outC with _ | (_ | _) <;> simp [stopSession]

lemma filter_isRelease_stopTrack (l : List Nat) :
    (l.map Effect.stopTrack).filter isRelease = l.map Effect.stopTrack :=
  List.filter_eq_self.mpr fun a ha => by
    rcases List.mem_map.mp ha with ⟨x, -, rfl⟩
    rfl

lemma filter_isRelease_stopSource (l : List Nat) :
    (l.map Effect.stopSource).filter isRelease = l.map Effect.stopSource :=
  List.filter_eq_self.mpr fun a ha => by
    rcases List.mem_map.mp ha with ⟨x, -, rfl⟩
    rfl

lemma disjoint_stopTrack_stopSource (l1 l2 : List Nat) :
    (l1.map Effect.stopTrack).Disjoint (l2.map Effect.stopSource) := by
  intro a h1 h2
  rcases List.mem_map.mp h1 with ⟨x, -, rfl⟩
  rcases List.mem_map.mp h2 with ⟨y, -, h⟩
  exact absurd h (by simp)

lemma stopSession_releases_nodup (s : GeminiState)
    (hts : ∀ ts, s.mediaStream = some ts → ts.Nodup)
    (hout : s.outputSources.Nodup) :
    ((stopSession s).2.filter isRelease).Nodup := by
  have hinj1 : Function.Injective Effect.stopTrack := fun x y h => by injection h
  have hinj2 : Function.Injective Effect.stopSource := fun x y h => by injection h
  rcases s with ⟨sess, sp, ms, src, proc, inC, outC, outs, nst, nid, cit, cot, gr⟩
  have hnd2 : (outs.map Effect.stopSource).Nodup := hout.map hinj2
  rcases ms with _ | ts
  · cases sess <;> cases src <;> cases proc <;>
      rcases inC with _ | (_ | _) <;> rcases outC with _ | (_ | _) <;>
      simp [stopSession, isRelease, List.filter_append, List.nodup_append,
        filter_isRelease_stopSource, hnd2]
  · have hnd1 : (ts.map Effect.stopTrack).Nodup := (hts ts rfl).map hinj1
    cases sess <;> cases src <;> cases proc <;>
      rcases inC with _ | (_ | _) <;> rcases outC with _ | (_ | _) <;>
      simp [stopSession, isRelease, List.filter_append, List.nodup_append,
        filter_isRelease_stopTrack, filter_isRelease_stopSource, hnd1, hnd2,
        disjoint_stopTrack_stopSource]

/-- C4: `stopSession` is idempotent and safe from any lifecycle state: with
distinct media tracks and distinct live outputs (as for the set-backed
originals), a second call in succession performs no resource release at all
(its only effect is the stop cue, and the model is total, so no error
occurs), and across the two calls every release effect — transport-session
close, each track stop, node disconnects, context closes, each live-output
stop — happens at most once. -/
theorem c4_stop_idempotent (s : GeminiState)
    (hts : ∀ ts, s.mediaStream = some ts → ts.Nodup)
    (hout : s.outputSources.Nodup) :
    (stopSession (stopSession s).1).2 = [Effect.playCue Cue.stopCue]
    ∧ ∀ a, isRelease a = true →
        ((stopSession s).2 ++ (stopSession (stopSession s).1).2).count a ≤ 1 := by
  refine ⟨stopSession_second s, fun a ha => ?_⟩
  rw [List.count_append, stopSession_second s]
  have h0 : List.count a [Effect.playCue Cue.stopCue] = 0 := by
    rw [List.count_eq_zero]
    intro hmem
    simp only [List.mem_singleton] at hmem
    subst hmem
    simp [isRelease] at ha
  have hnd := stopSession_releases_nodup s hts hout
  have h1 := List.nodup_iff_count_le_one.mp hnd a
  rw [List.count_filter ha] at h1
  omega

/-- C4 (witness): the double-stop statement at an active session state. -/
theorem c4_stop_idempotent_witness :
    (stopSession (stopSession initState).1).2 = [Effect.playCue Cue.stopCue]
    ∧ ((stopSession initState).2
        ++ (stopSession (stopSession initState).1).2).count Effect.closeSession ≤ 1 := by
  have h := c4_stop_idempotent initState
    (by intro ts hts; simp [initState] at hts; subst hts; decide)
    (by decide)
  exact ⟨h.1, h.2 Effect.closeSession rfl⟩

/-- C2: on every inbound message carrying the interruption signal,
`handleSessionMessage`'s interruption handling stops every currently
scheduled playback output, clears the live output set, resets the watermark
to zero, and — when the bot accumulator is non-empty — emits the bot turn
as final with its attached grounding, while leaving the user accumulator
unchanged; all of these effects precede the rest of the message's handling
(in particular any audio scheduling in the same message), and none of them
schedules audio. -/
theorem c2_interrupt_behavior (m : ServerMessage) (s : GeminiState)
    (h : m.interrupted = true) :
    (interruptStep m s).2
        = s.outputSources.map Effect.stopSource
          ++ (if s.currentOutputTranscription = "" then []
              else [Effect.transcriptUpdate
                (TranscriptTurn.mk Author.bot s.currentOutputTranscription true
                  (some s.currentGrounding))])
    ∧ (interruptStep m s).1.outputSources = []
    ∧ (interruptStep m s).1.nextStartTime = 0
    ∧ (interruptStep m s).1.currentInputTranscription = s.currentInputTranscription
    ∧ (s.currentOutputTranscription ≠ "" →
        (interruptStep m s).1.currentOutputTranscription = ""
        ∧ (interruptStep m s).1.currentGrounding = [])
    ∧ (handleSessionMessage m s).2
        = (interruptStep m s).2 ++ (stepsAfterInterrupt m (interruptStep m s).1).2
    ∧ (interruptStep m s).2.all (fun e => !(isSchedule e)) = true := by
  by_cases hc : s.currentOutputTranscription = "" <;>
    simp [interruptStep, h, hc, handleSessionMessage, isSchedule, List.all_append,
      List.all_map, Function.comp]

/-- C2 (witness): the interruption statement at a concrete mid-utterance
state and an interrupting message that also carries audio. -/
theorem c2_interrupt_behavior_witness :
    (interruptStep c2Msg c2State).1.nextStartTime = 0
    ∧ (interruptStep c2Msg c2State).1.currentOutputTranscription = ""
    ∧ (interruptStep c2Msg c2State).1.currentGrounding = [] := by
  obtain ⟨-, -, h3, -, h5, -, -⟩ := c2_interrupt_behavior c2Msg c2State rfl
  obtain ⟨h5a, h5b⟩ := h5 (by decide)
  exact ⟨h3, h5a, h5b⟩

/-- C7: on a turn-complete message, each author whose accumulator is
non-empty yields exactly one final turn whose text is the (non-empty)
accumulator — the bot turn carrying the accumulated grounding — and an
author whose accumulator is empty yields no final turn; afterwards both
accumulators are empty, and the grounding buffer is cleared exactly when a
bot turn was flushed. -/
theorem c7_turn_complete (s : GeminiState) :
    (transcriptEffects (handleSessionMessage tcMsg s).2).filter
        (fun t => t.author == Author.user)
      = (if s.currentInputTranscription = "" then []
         else [TranscriptTurn.mk Author.user s.currentInputTranscription true none])
    ∧ (transcriptEffects (handleSessionMessage tcMsg s).2).filter
        (fun t => t.author == Author.bot)
      = (if s.currentOutputTranscription = "" then []
         else [TranscriptTurn.mk Author.bot s.currentOutputTranscription true
            (some s.currentGrounding)])
    ∧ (handleSessionMessage tcMsg s).1.currentInputTranscription = ""
    ∧ (handleSessionMessage tcMsg s).1.currentOutputTranscription = ""
    ∧ (handleSessionMessage tcMsg s).1.currentGrounding
      = (if s.currentOutputTranscription = "" then s.currentGrounding else []) := by
  by_cases hi : s.currentInputTranscription = "" <;>
    by_cases ho : s.currentOutputTranscription = "" <;>
    simp [handleSessionMessage, interruptStep, stepsAfterInterrupt, inputStep,
      outputStep, audioStep, turnCompleteStep, tcMsg, transcriptEffects, hi, ho]

lemma handleMsg_botDelta (d : String) (s : GeminiState) :
    handleSessionMessage (botMsg d) s
      = ({ s with currentOutputTranscription := s.currentOutputTranscription ++ d },
         [Effect.statusUpdate AppStatus.SPEAKING none,
          Effect.transcriptUpdate (TranscriptTurn.mk Author.bot
            (s.currentOutputTranscription ++ d) false (some s.currentGrounding))]) := by
  simp [handleSessionMessage, interruptStep, stepsAfterInterrupt, inputStep,
    outputStep, audioStep, turnCompleteStep, botMsg]

lemma handleMsg_userReplace (d : String) (s : GeminiState) :
    handleSessionMessage (userMsg d) s
      = ({ s with currentInputTranscription := d },
         [Effect.statusUpdate AppStatus.PROCESSING none,
          Effect.transcriptUpdate (TranscriptTurn.mk Author.user d false none)]) := by
  simp [handleSessionMessage, interruptStep, stepsAfterInterrupt, inputStep,
    outputStep, audioStep, turnCompleteStep, userMsg]

lemma c1_bot_seq (ds : List String) (s : GeminiState) :
    (transcriptEffects (processMsgs (ds.map botMsg) s).2).map TranscriptTurn.text
        = cumConcat s.currentOutputTranscription ds
    ∧ (transcriptEffects (processMsgs (ds.map botMsg) s).2).all
        (fun t => t.author == Author.bot && t.isFinal == false) = true := by
  induction ds generalizing s with
  | nil => exact ⟨rfl, rfl⟩
  | cons d ds ih =>
    obtain ⟨ih1, ih2⟩ :=
      ih { s with currentOutputTranscription := s.currentOutputTranscription ++ d }
    constructor
    · simpa [processMsgs, handleMsg_botDelta, transcriptEffects, cumConcat,
        List.filterMap_append] using ih1
    · simpa [processMsgs, handleMsg_botDelta, transcriptEffects,
        List.filterMap_append, List.all_append] using ih2

lemma c1_user_seq (ds : List String) (s : GeminiState) :
    (transcriptEffects (processMsgs (ds.map userMsg) s).2).map TranscriptTurn.text
        = ds
    ∧ (transcriptEffects (processMsgs (ds.map userMsg) s).2).all
        (fun t => t.author == Author.user && t.isFinal == false) = true := by
  induction ds generalizing s with
  | nil => exact ⟨rfl, rfl⟩
  | cons d ds ih =>
    obtain ⟨ih1, ih2⟩ := ih { s with currentInputTranscription := d }
    constructor
    · simpa [processMsgs, handleMsg_userReplace, transcriptEffects,
        List.filterMap_append] using ih1
    · simpa [processMsgs, handleMsg_userReplace, transcriptEffects,
        List.filterMap_append, List.all_append] using ih2

/-- C1: for every sequence of inbound partial-transcription messages, the
bot partials are append-semantics — after each bot partial the emitted
non-final bot turn's text is the concatenation of all bot deltas received
so far in the current turn (the running concatenations `cumConcat`) — while
the user partials are replace-semantics: after each user partial the
emitted non-final user turn's text is exactly that latest partial.  All
turns emitted on these paths are non-final and by the matching author. -/
theorem c1_partial_semantics (ds : List String) :
    (transcriptEffects (processMsgs (ds.map botMsg) initState).2).map
        TranscriptTurn.text = cumConcat "" ds
    ∧ (transcriptEffects (processMsgs (ds.map botMsg) initState).2).all
        (fun t => t.author == Author.bot && t.isFinal == false) = true
    ∧ (transcriptEffects (processMsgs (ds.map userMsg) initState).2).map
        TranscriptTurn.text = ds
    ∧ (transcriptEffects (processMsgs (ds.map userMsg) initState).2).all
        (fun t => t.author == Author.user && t.isFinal == false) = true :=
  ⟨(c1_bot_seq ds initState).1, (c1_bot_seq ds initState).2,
   (c1_user_seq ds initState).1, (c1_user_seq ds initState).2⟩

lemma transcriptEffects_append (a b : List Effect) :
    transcriptEffects (a ++ b) = transcriptEffects a ++ transcriptEffects b := by
  simp [transcriptEffects]

lemma all_filter_self (l : List GroundingSource) :
    (l.filter srcOk).all srcOk = true := by
  simp only [List.all_eq_true]
  intro x hx
  exact (List.mem_filter.mp hx).2

lemma c8_interrupt (m : ServerMessage) (s : GeminiState) (hs : grOk s = true) :
    grOk (interruptStep m s).1 = true
    ∧ (transcriptEffects (interruptStep m s).2).all turnOk = true := by
  simp only [grOk] at hs
  cases hm : m.interrupted <;>
    by_cases hc : s.currentOutputTranscription = "" <;>
    simp [interruptStep, grOk, turnOk, transcriptEffects, hm, hc, hs,
      List.filterMap_append, List.filterMap_map]

lemma c8_input (m : ServerMessage) (s : GeminiState) (hs : grOk s = true) :
    grOk (inputStep m s).1 = true
    ∧ (transcriptEffects (inputStep m s).2).all turnOk = true := by
  simp only [grOk, List.all_eq_true] at hs
  rcases hm : m.inputTranscription with _ | d <;>
    simp [inputStep, grOk, turnOk, transcriptEffects, hm, hs] <;> exact hs

lemma c8_output (m : ServerMessage) (s : GeminiState) (hs : grOk s = true) :
    grOk (outputStep m s).1 = true
    ∧ (transcriptEffects (outputStep m s).2).all turnOk = true := by
  simp only [grOk] at hs
  rcases hm : m.outputTranscription with _ | d <;>
    rcases hg : m.groundingChunks with _ | chunks <;>
    simp [outputStep, grOk, turnOk, transcriptEffects, hm, hg, hs, all_filter_self]

lemma c8_audio (m : ServerMessage) (s : GeminiState) (hs : grOk s = true) :
    grOk (audioStep m s).1 = true
    ∧ (transcriptEffects (audioStep m s).2).all turnOk = true := by
  simp only [grOk, List.all_eq_true] at hs
  rcases hm : m.audio with _ | ⟨ct, dur⟩ <;>
    rcases hc : s.outputCtxClosed with _ | b <;>
    simp [audioStep, playStreamedAudio, grOk, turnOk, transcriptEffects, hm, hc,
      hs] <;> exact hs

lemma c8_tc (m : ServerMessage) (s : GeminiState) (hs : grOk s = true) :
    grOk (turnCompleteStep m s).1 = true
    ∧ (transcriptEffects (turnCompleteStep m s).2).all turnOk = true := by
  simp only [grOk] at hs
  cases hm : m.turnComplete <;>
    by_cases hi : s.currentInputTranscription = "" <;>
    by_cases ho : s.currentOutputTranscription = "" <;>
    simp [turnCompleteStep, grOk, turnOk, transcriptEffects, hm, hi, ho, hs,
      List.filterMap_append, List.all_append]

lemma c8_step (m : ServerMessage) (s : GeminiState) (hs : grOk s = true) :
    grOk (handleSessionMessage m s).1 = true
    ∧ (transcriptEffects (handleSessionMessage m s).2).all turnOk = true := by
  obtain ⟨g1, e1⟩ := c8_interrupt m s hs
  obtain ⟨g2, e2⟩ := c8_input m (interruptStep m s).1 g1
  obtain ⟨g3, e3⟩ := c8_output m (inputStep m (interruptStep m s).1).1 g2
  obtain ⟨g4, e4⟩ :=
    c8_audio m (outputStep m (inputStep m (interruptStep m s).1).1).1 g3
  obtain ⟨g5, e5⟩ :=
    c8_tc m (audioStep m (outputStep m (inputStep m (interruptStep m s).1).1).1).1 g4
  refine ⟨g5, ?_⟩
  have hE : (handleSessionMessage m s).2
      = (interruptStep m s).2
        ++ ((inputStep m (interruptStep m s).1).2
            ++ (outputStep m (inputStep m (interruptStep m s).1).1).2
            ++ (audioStep m (outputStep m (inputStep m (interruptStep m s).1).1).1).2
            ++ (turnCompleteStep m
                (audioStep m (outputStep m (inputStep m (interruptStep m s).1).1).1).1).2) := rfl
  rw [hE]
  simp [transcriptEffects_append, List.all_append, e1, e2, e3, e4, e5]

lemma c8_run (msgs : List ServerMessage) : ∀ s : GeminiState, grOk s = true →
    grOk (processMsgs msgs s).1 = true
    ∧ (transcriptEffects (processMsgs msgs s).2).all turnOk = true := by
  induction msgs with
  | nil => exact fun s hs => ⟨hs, rfl⟩
  | cons m ms ih =>
    intro s hs
    obtain ⟨h1, h2⟩ := c8_step m s hs
    obtain ⟨h3, h4⟩ := ih _ h1
    refine ⟨h3, ?_⟩
    have hE : (processMsgs (m :: ms) s).2
        = (handleSessionMessage m s).2
          ++ (processMsgs ms (handleSessionMessage m s).1).2 := rfl
    rw [hE, transcriptEffects_append, List.all_append]
    simp [h2, h4]

/-- C8: across every sequence of inbound messages processed from the
initial active-session state, every emitted bot turn carries a grounding
list (the grounding buffer accumulated at emission time), and no emitted
turn ever carries a grounding source with the unresolved-uri marker `'#'`:
grounding-metadata updates are filtered before being stored, so unresolved
sources never reach any emission. -/
theorem c8_grounding_filtered (msgs : List ServerMessage) :
    (transcriptEffects (processMsgs msgs initState).2).all turnOk = true :=
  (c8_run msgs initState rfl).2

end Theorems

end ConvBot

